import Mathlib

/-!
Shallow embedding of `src/waybacktweets/api/visualize.py` (class
`HTMLTweetsVisualizer`), the only source file of the repository.

Modelling conventions:
* A tweet record (a JSON object) is an association list from field names to
  scalar values.  Scalar JSON values are modelled by their rendered string
  form; the empty string stands for any Python-falsy value (empty string or
  null), so Python truthiness of a field becomes non-emptiness.
* A Python dict lookup `tweet["k"]` is `Tweet.get`; a missing key is `none`
  (Python raises `KeyError`), and a computation that performs lookups lives
  in the `Option` monad: `none` models the uncaught exception aborting the
  whole computation with no partial output.
* `generate` builds the document as a list of `Chunk`s, one per emitted
  fragment (each `html += ...` of the source, with consecutive constant
  fragments merged); the produced HTML string is the concatenation of their
  renderings, which reproduces the source's f-string output verbatim.
* The timestamp formatting helper `timestamp parser` imported from
  `waybacktweets.utils` (not part of the visualizer) is passed as an
  explicit function argument `fmt : String → String`.
* The filesystem is a map from paths to file contents
  (`String → Option String`); Lean strings correspond bijectively to
  UTF-8 byte sequences, so writing/reading a `String` models writing and
  reading UTF-8 encoded text.
-/

/-- A tweet record: a JSON object as an association list of string fields. -/
abbrev Tweet : Type := List (String × String)

/-- Python dict lookup `tweet[key]`: `none` models a `KeyError`. -/
def Tweet.get (t : Tweet) (key : String) : Option String :=
  (t.find? (fun kv => kv.1 == key)).map (fun kv => kv.2)

/-- Python truthiness of a (string-modelled) scalar: non-empty. -/
def truthy (s : String) : Bool := !(s.isEmpty)

/-- `tweets_per_page = 24` (line 57 of the source). -/
def tweets_per_page : Nat := 24

/-- `total_pages = (len(self.json_path) + tweets_per_page - 1) // tweets_per_page`
(line 58 of the source), as a function of the record count. -/
def total_pages (n : Nat) : Nat := (n + tweets_per_page - 1) / tweets_per_page

/-- `start_index = (page - 1) * tweets_per_page` (line 110 of the source). -/
def page_start (page : Nat) : Nat := (page - 1) * tweets_per_page

/-- The zero-based record positions visited by the card loop of page `page`:
`range(start_index, end_index)` with
`end_index = min(start_index + tweets_per_page, len(self.json_path))`
(lines 110-113 of the source). -/
def page_indices (n page : Nat) : List Nat :=
  List.range' (page_start page)
    (min (page_start page + tweets_per_page) n - page_start page)

/-- The records rendered on page `page`: the elements of `json_path` at the
positions of `page_indices`. -/
def pageTweets (records : List Tweet) (page : Nat) : List Tweet :=
  (page_indices records.length page).filterMap (fun index => records[index]?)

/-- The field values a card reads from its record (lines 117-170 of the
source).  `available_fields` is populated exactly when
`available_tweet_text` is truthy, mirroring the lookup of
`available_tweet_is_RT` / `available_tweet_info` happening only in that
branch. -/
structure TweetFields where
  available_tweet_text : String
  available_fields : Option (String × String)
  archived_tweet_url : String
  parsed_archived_tweet_url : String
  original_tweet_url : String
  parsed_tweet_url : String
  archived_urlkey : String
  archived_timestamp : String
  archived_mimetype : String
  archived_statuscode : String
  archived_digest : String
  archived_length : String
deriving DecidableEq

/-- All dict lookups a card performs on its record, in the Option monad:
any missing key makes the whole render fail (`KeyError`). -/
def readTweetFields (t : Tweet) : Option TweetFields :=
  (t.get "available_tweet_text").bind fun text =>
  (if truthy text then
      (t.get "available_tweet_is_RT").bind fun is_RT =>
      (t.get "available_tweet_info").bind fun info =>
      some (some (is_RT, info))
    else some none).bind fun available_fields =>
  (t.get "archived_tweet_url").bind fun archived_tweet_url =>
  (t.get "parsed_archived_tweet_url").bind fun parsed_archived_tweet_url =>
  (t.get "original_tweet_url").bind fun original_tweet_url =>
  (t.get "parsed_tweet_url").bind fun parsed_tweet_url =>
  (t.get "archived_urlkey").bind fun archived_urlkey =>
  (t.get "archived_timestamp").bind fun archived_timestamp =>
  (t.get "archived_mimetype").bind fun archived_mimetype =>
  (t.get "archived_statuscode").bind fun archived_statuscode =>
  (t.get "archived_digest").bind fun archived_digest =>
  (t.get "archived_length").bind fun archived_length =>
  some ⟨text, available_fields, archived_tweet_url, parsed_archived_tweet_url,
    original_tweet_url, parsed_tweet_url, archived_urlkey, archived_timestamp,
    archived_mimetype, archived_statuscode, archived_digest, archived_length⟩

/-- The `iframe_src` dict of the source (lines 118-123). -/
def iframe_src (f : TweetFields) : List (String × String) :=
  [("Archived Tweet", f.archived_tweet_url),
   ("Parsed Archived Tweet", f.parsed_archived_tweet_url),
   ("Original Tweet", f.original_tweet_url),
   ("Parsed Tweet", f.parsed_tweet_url)]

/-- HTML element id `{pre}_{index}_{key_cleaned}` as used for the accordion
checkbox (`tab`), loading div (`loading`) and iframe (`iframe`) ids. -/
def elem_id (pre : String) (index : Nat) (key_cleaned : String) : String :=
  pre ++ "_" ++ Nat.repr index ++ "_" ++ key_cleaned

/-- HTML element id `page_{page}` of a page container div. -/
def page_id (page : Nat) : String := "page_" ++ Nat.repr page

/-- HTML element id `page_link_{page}` of a pagination link. -/
def page_link_id (page : Nat) : String := "page_link_" ++ Nat.repr page

/-- `key.replace(" ", "_")` (source line 126): every space of the key is
replaced by an underscore (the pattern is a single character, so Python's
`str.replace` is a character map). -/
def key_cleaned_of (key : String) : String :=
  ⟨key.data.map (fun c => if c = ' ' then '_' else c)⟩

/-- The `<script>` block emitted after each accordion (source lines 136-150):
the Python triple-quoted string with `index`, `key_cleaned` and `url`
substituted by `.format`. -/
def accordionScriptString (index : Nat) (key_cleaned url : String) : String :=
  let tab_id := elem_id ("tab") index key_cleaned
  let loading_id := elem_id ("loading") index key_cleaned
  let iframe_id := elem_id ("iframe") index key_cleaned
  "\n                        <script>\n"
  ++ "                        // Loads the src attribute of the iframe tag\n"
  ++ s!"                        document.getElementById(\x27{tab_id}\x27).addEventListener(\x27change\x27, function() \x7b\n"
  ++ "                            if (this.checked) \x7b\n"
  ++ s!"                                document.getElementById(\x27{loading_id}\x27).style.display = \x27block\x27;\n"
  ++ s!"                                document.getElementById(\x27{iframe_id}\x27).src = \x27{url}\x27;\n"
  ++ "                            \x7d\n"
  ++ "                        \x7d);\n"
  ++ "                        </script>\n"
  ++ "                        "

/-- One full accordion section for `key` (source lines 125-150): checkbox
input, label, content div with loading div and lazy iframe, and the script
block. -/
def accordionString (index : Nat) (key url : String) : String :=
  let key_cleaned := key_cleaned_of key
  let tab_id := elem_id ("tab") index key_cleaned
  let loading_id := elem_id ("loading") index key_cleaned
  let iframe_id := elem_id ("iframe") index key_cleaned
  "<div class=\"accordion\">\n"
  ++ s!"<input type=\"checkbox\" id=\"{tab_id}\" />\n"
  ++ s!"<label class=\"accordion-label\" for=\"{tab_id}\">Click to load the iframe from {key}</label>\n"
  ++ "<div class=\"accordion-content\">\n"
  ++ s!"<div id=\"{loading_id}\" class=\"loading\">Loading...</div>\n"
  ++ s!"<iframe id=\"{iframe_id}\" frameborder=\"0\" scrolling=\"auto\" loading=\"lazy\" style=\"display: none;\" onload=\"document.getElementById(\x27{loading_id}\x27).style.display=\x27none\x27; this.style.display=\x27block\x27;\"></iframe>\n"
  ++ "</div>\n"
  ++ "</div>\n"
  ++ accordionScriptString index key_cleaned url

/-- The plain-text content block of a card with truthy
`available_tweet_text` (source lines 152-156). -/
def availableTextString (text is_RT info : String) : String :=
  "<br>\n"
  ++ s!"<p><strong class=\"content\">Available Tweet Content:</strong> {text}</p>\n"
  ++ s!"<p><strong class=\"content\">Available Tweet Is Retweet:</strong> {is_RT}</p>\n"
  ++ s!"<p><strong class=\"content\">Available Tweet Username:</strong> {info}</p>\n"

/-- The unconditional labelled fields block of a card (source lines
158-170); `ts_human` is the formatted timestamp. -/
def alwaysFieldsString (f : TweetFields) (ts_human : String) : String :=
  let a := f.archived_tweet_url
  let pa := f.parsed_archived_tweet_url
  let o := f.original_tweet_url
  let po := f.parsed_tweet_url
  let uk := f.archived_urlkey
  let ts := f.archived_timestamp
  let mt := f.archived_mimetype
  let sc := f.archived_statuscode
  let dg := f.archived_digest
  let ln := f.archived_length
  "<br>\n"
  ++ s!"<p><strong>Archived Tweet:</strong> <a href=\"{a}\" target=\"_blank\">{a}</a></p>\n"
  ++ s!"<p><strong>Parsed Archived Tweet:</strong> <a href=\"{pa}\" target=\"_blank\">{pa}</a></p>\n"
  ++ s!"<p><strong>Original Tweet:</strong> <a href=\"{o}\" target=\"_blank\">{o}</a></p>\n"
  ++ s!"<p><strong>Parsed Tweet:</strong> <a href=\"{po}\" target=\"_blank\">{po}</a></p>\n"
  ++ s!"<p><strong>Archived URL Key:</strong> {uk}</p>\n"
  ++ s!"<p><strong>Archived Timestamp:</strong> {ts_human} ({ts})</p>\n"
  ++ s!"<p><strong>Archived mimetype:</strong> {mt}</p>\n"
  ++ s!"<p><strong>Archived Statuscode:</strong> {sc}</p>\n"
  ++ s!"<p><strong>Archived Digest:</strong> {dg}\n"
  ++ s!"<p><strong>Archived Length:</strong> {ln}</p>\n"

/-- The embedded stylesheet (source lines 71-96), one literal block. -/
def styleString : String :=
  "<style>\n"
  ++ "body \x7b font-family: monospace; background-color: whitesmoke; color: #1c1e21; margin: 0; padding: 20px; \x7d\n"
  ++ ".container \x7b display: flex; flex-wrap: wrap; gap: 20px; \x7d\n"
  ++ ".tweet \x7b flex: 0 1 calc(33.33% - 20px); background-color: #ffffff; border: 1px solid #e2e2e2; border-radius: 10px; padding: 15px; overflow-wrap: break-word; margin: auto; width: 600px; \x7d\n"
  ++ ".tweet strong \x7b font-weight: bold; \x7d\n"
  ++ ".tweet a \x7b color: #000000; text-decoration: none; \x7d\n"
  ++ ".content \x7b color: #000000; \x7d\n"
  ++ ".source \x7b font-size: 12px; text-align: center; \x7d\n"
  ++ ".tweet a:hover \x7b text-decoration: underline; \x7d\n"
  ++ "h1, h3 \x7b text-align: center; \x7d\n"
  ++ "iframe \x7b width: 600px; height: 600px; \x7d\n"
  ++ "input \x7b position: absolute; opacity: 0; z-index: -1; \x7d\n"
  ++ ".accordion \x7b margin: 10px; border-radius: 5px; overflow: hidden; box-shadow: 0 4px 4px -2px rgba(0, 0, 0, 0.4); \x7d\n"
  ++ ".accordion-label \x7b display: flex; justify-content: space-between; padding: 1em; font-weight: bold; cursor: pointer; background: #000000; color: #ffffff; \x7d\n"
  ++ ".accordion-content \x7b max-height: 0; padding: 0 1em; background: white; transition: all 0.35s; \x7d\n"
  ++ "input:checked ~ .accordion-content \x7b max-height: 100vh; padding: 1em; \x7d\n"
  ++ ".pagination \x7b text-align: center; margin-top: 20px; \x7d\n"
  ++ ".pagination a \x7b margin: 0 5px; text-decoration: none; color: #000000; padding: 1px 2px; border-radius: 5px; \x7d\n"
  ++ ".pagination a:hover \x7b background-color: #e2e2e2; \x7d\n"
  ++ ".pagination a.selected \x7b background-color: #e2e2e2; color: #000000; font-weight: bold; \x7d\n"
  ++ "</style>\n"

/-- The `<title>` line (source line 67). -/
def title_line (username : String) : String :=
  s!"<title>@{username}\x27s archived tweets</title>\n"

/-- The trailing pagination/initialization `<script>` block (source lines
186-206), with `total_pages` substituted by `.format`. -/
def paginationScriptString (tp : Nat) : String :=
  "\n        <script>\n"
  ++ "        // Function to show the selected page and hide the others\n"
  ++ "        function showPage(page) \x7b\n"
  ++ s!"            for (let i = 1; i <= {tp}; i++) \x7b\n"
  ++ "                document.getElementById(\x27page_\x27 + i).style.display = \x27none\x27;\n"
  ++ "                document.getElementById(\x27page_link_\x27 + i).classList.remove(\x27selected\x27);\n"
  ++ "            \x7d\n"
  ++ "\n"
  ++ "            document.getElementById(\x27page_\x27 + page).style.display = \x27block\x27;\n"
  ++ "            document.getElementById(\x27page_link_\x27 + page).classList.add(\x27selected\x27);\n"
  ++ "        \x7d\n"
  ++ "\n"
  ++ "        // Initializes the page to show only the first page\n"
  ++ "        document.addEventListener(\x27DOMContentLoaded\x27, (event) => \x7b\n"
  ++ "            showPage(1); // Shows only the first page on load\n"
  ++ "            document.getElementById(\x27loading_first_page\x27).style.display = \x27none\x27;\n"
  ++ "        \x7d);\n"
  ++ "        </script>\n"
  ++ "        "

/-- One emitted document fragment.  `generate` concatenates the renderings
of its chunk list; parameterized constructors mark the fragments the
specification's claims quantify over. -/
inductive Chunk where
  | text (s : String)
  | heading (username : String)
  | loadingFirstPage
  | pageOpen (page : Nat)
  | accordion (index : Nat) (key url : String)
  | availableText (text is_RT info : String)
  | alwaysFields (f : TweetFields) (ts_human : String)
  | pageLink (page : Nat)
  | paginationScript (tp : Nat)
deriving DecidableEq

/-- The exact string a chunk contributes to the document. -/
def Chunk.render : Chunk → String
  | .text s => s
  | .heading username => s!"<h1>@{username}\x27s archived tweets</h1>\n"
  | .loadingFirstPage =>
      "<p id=\"loading_first_page\">Building pagination with JavaScript...</p>\n"
  | .pageOpen page =>
      let pid := page_id page
      s!"<div id=\"{pid}\" style=\"display:none;\">\n"
  | .accordion index key url => accordionString index key url
  | .availableText t r i => availableTextString t r i
  | .alwaysFields f ts_human => alwaysFieldsString f ts_human
  | .pageLink page =>
      let plid := page_link_id page
      let pstr := Nat.repr page
      s!"<a href=\"#\" id=\"{plid}\" onclick=\"showPage({pstr})\">{pstr}</a>\n"
  | .paginationScript tp => paginationScriptString tp

/-- The chunks of one tweet card (source lines 115-171): the opening card
div, then the accordion block iff `available_tweet_text` is falsy, then the
plain-text block iff it is truthy (`available_fields` is populated exactly
under that condition by `readTweetFields`), then the unconditional labelled
fields and the closing div.  `fmt` is the timestamp formatting helper. -/
def tweetChunks (fmt : String → String) (index : Nat) (f : TweetFields) :
    List Chunk :=
  Chunk.text ("<div class=\"tweet\">\n")
  :: ((if truthy f.available_tweet_text then []
       else (iframe_src f).map (fun kv => Chunk.accordion index kv.1 kv.2))
    ++ (match f.available_fields with
        | some (is_RT, info) =>
            [Chunk.availableText f.available_tweet_text is_RT info]
        | none => [])
    ++ [Chunk.alwaysFields f (fmt f.archived_timestamp),
        Chunk.text ("</div>\n")])

/-- Render one tweet card: perform all its dict lookups, then emit its
chunks; `none` models the `KeyError` aborting the render. -/
def renderTweet (fmt : String → String) (index : Nat) (t : Tweet) :
    Option (List Chunk) :=
  (readTweetFields t).map (tweetChunks fmt index)

/-- Option-monad traversal: the whole list fails as soon as one element
fails (an uncaught exception inside a Python `for` loop). -/
def traverseOption (f : α → Option β) : List α → Option (List β)
  | [] => some []
  | a :: as =>
      (f a).bind fun b =>
      (traverseOption f as).bind fun bs =>
      some (b :: bs)

/-- The chunks of one page (source lines 104-173): the hidden page
container div, the card grid container, the cards of the page's record
range, and the two closing divs. -/
def renderPage (fmt : String → String) (records : List Tweet) (page : Nat) :
    Option (List Chunk) :=
  (traverseOption
      (fun index => (records[index]?).bind fun tweet => renderTweet fmt index tweet)
      (page_indices records.length page)).bind fun cards =>
  some (Chunk.pageOpen page
    :: Chunk.text ("<div class=\"container\">\n")
    :: (cards.flatten ++ [Chunk.text ("</div>\n</div>\n")]))

/-- Everything emitted before the page loop (source lines 60-102). -/
def headerChunks (username : String) : List Chunk :=
  [Chunk.text ("<!DOCTYPE html>\n"),
   Chunk.text ("<html lang=\"en\">\n"),
   Chunk.text ("<!-- This document was generated by Wayback Tweets. Visit: https://claromes.github.io/waybacktweets -->\n"),
   Chunk.text ("<head>"),
   Chunk.text ("<meta charset=\"UTF-8\">\n"),
   Chunk.text ("<meta name=\"viewport\" content=\"width=device-width, initial-scale=1.0\">\n"),
   Chunk.text (title_line username),
   Chunk.text styleString,
   Chunk.text ("</head>\n<body>\n"),
   Chunk.heading username,
   Chunk.loadingFirstPage]

/-- Everything emitted after the page loop (source lines 175-210): the
pagination control with one link per page, the attribution line and the
pagination script. -/
def footerChunks (tp : Nat) : List Chunk :=
  [Chunk.text ("<br>\n"),
   Chunk.text ("<div class=\"pagination\">\n")]
  ++ (List.range' 1 tp).map Chunk.pageLink
  ++ [Chunk.text ("</div>\n"),
      Chunk.text ("<br><p class=\"source\">generated by <a href=\"https://claromes.github.io/waybacktweets/\" target=\"_blank\">Wayback Tweets↗</a></p>\n"),
      Chunk.paginationScript tp,
      Chunk.text ("</body>\n"),
      Chunk.text ("</html>")]

/-- The visualizer state after `__init__`: `json_path` holds the loaded
records, `html_file_path` the optional output path (default `None`). -/
structure HTMLTweetsVisualizer where
  username : String
  json_path : List Tweet
  html_file_path : Option String

/-- `generate` as a chunk list (source lines 50-211): header, one block per
page in `range(1, total_pages + 1)`, footer.  Fails (`none`) iff some
record's lookup fails. -/
def generateChunks (fmt : String → String) (v : HTMLTweetsVisualizer) :
    Option (List Chunk) :=
  (traverseOption (renderPage fmt v.json_path)
      (List.range' 1 (total_pages v.json_path.length))).bind fun pages =>
  some (headerChunks v.username ++ pages.flatten
    ++ footerChunks (total_pages v.json_path.length))

/-- `generate`: the full HTML document string. -/
def generate (fmt : String → String) (v : HTMLTweetsVisualizer) :
    Option String :=
  (generateChunks fmt v).map (fun cs => String.join (cs.map Chunk.render))

/-- `_json_loader` (source lines 44-48).  The filesystem (`os.path.isfile`
together with reading the file, both from the Python standard library, not
this repository) is a map `isfile` from paths to the contents of existing
files; JSON decoding (`json.load` / `json.loads`, also standard library) is
a function `parse` whose `Except.error` models the uncaught parse
exception.  If the input is an existing file its contents are parsed,
otherwise the input itself is parsed. -/
def json_loader {α : Type} (isfile : String → Option String)
    (parse : String → Except String α) (json_path : String) :
    Except String α :=
  match isfile json_path with
  | some content => parse content
  | none => parse json_path

/-- `save` (source lines 213-221): open `html_file_path` for writing and
write `html_content`.  On a configured path it returns the updated
filesystem (overwriting the path's previous contents); with the default
`None` path, Python's `open(None, "w")` raises a `TypeError`, modelled by
`Except.error` with the filesystem unchanged. -/
def save (v : HTMLTweetsVisualizer) (html_content : String)
    (fs : String → Option String) :
    Except String (String → Option String) :=
  match v.html_file_path with
  | none =>
      Except.error "TypeError: expected str, bytes or os.PathLike object, not NoneType"
  | some path =>
      Except.ok (fun p => if p = path then some html_content else fs p)

/-- Extract the page number of a page container div chunk. -/
def Chunk.pageOpenId : Chunk → Option Nat
  | .pageOpen page => some page
  | _ => none

/-- Extract the page number of a pagination link chunk. -/
def Chunk.pageLinkId : Chunk → Option Nat
  | .pageLink page => some page
  | _ => none

/-- Extract the section title of an accordion chunk. -/
def Chunk.accordionKey : Chunk → Option String
  | .accordion _ key _ => some key
  | _ => none

/-- Whether a chunk is a collapsible accordion section. -/
def Chunk.isAccordion : Chunk → Bool
  | .accordion .. => true
  | _ => false

/-- Whether a chunk is the plain-text content block of a card. -/
def Chunk.isAvailableText : Chunk → Bool
  | .availableText .. => true
  | _ => false

/-- Sample record whose live text is unavailable (falsy), with all required
fields present. -/
def sampleArchivedTweet : Tweet :=
  [("available_tweet_text", ""), ("archived_tweet_url", "AU"),
   ("parsed_archived_tweet_url", "PAU"), ("original_tweet_url", "OU"),
   ("parsed_tweet_url", "PU"), ("archived_urlkey", "UK"),
   ("archived_timestamp", "20200101000000"), ("archived_mimetype", "MT"),
   ("archived_statuscode", "200"), ("archived_digest", "DG"),
   ("archived_length", "42")]

/-- Sample record whose live text is available (truthy), with all required
fields present. -/
def sampleTextTweet : Tweet :=
  [("available_tweet_text", "hello"), ("available_tweet_is_RT", "False"),
   ("available_tweet_info", "someone"), ("archived_tweet_url", "AU"),
   ("parsed_archived_tweet_url", "PAU"), ("original_tweet_url", "OU"),
   ("parsed_tweet_url", "PU"), ("archived_urlkey", "UK"),
   ("archived_timestamp", "20200101000000"), ("archived_mimetype", "MT"),
   ("archived_statuscode", "200"), ("archived_digest", "DG"),
   ("archived_length", "42")]

/-- Sample record with a missing required field (only the availability flag
is present). -/
def sampleIncompleteTweet : Tweet := [("available_tweet_text", "")]

/-- C5: the record loader parses the contents of an existing file, parses
the input itself otherwise, and parse errors propagate unchanged to the
caller in either branch. -/
theorem json_loader_branches {α : Type} (isfile : String → Option String)
    (parse : String → Except String α) (json_path : String) :
    (∀ content, isfile json_path = some content →
        json_loader isfile parse json_path = parse content)
    ∧ (isfile json_path = none →
        json_loader isfile parse json_path = parse json_path)
    ∧ (∀ content e, isfile json_path = some content →
        parse content = Except.error e →
        json_loader isfile parse json_path = Except.error e)
    ∧ (∀ e, isfile json_path = none →
        parse json_path = Except.error e →
        json_loader isfile parse json_path = Except.error e) := by
  refine ⟨fun content h => ?_, fun h => ?_, fun content e h he => ?_,
    fun e h he => ?_⟩ <;> simp [json_loader, h] <;> simp [he]

/-- Witness for C5 at a concrete filesystem and parse function. -/
theorem json_loader_branches_witness :
    (json_loader (fun p => if p = "tweets.json" then some "[1]" else none)
        (fun s => if s = "[1]" then Except.ok 1 else Except.error "Expecting value")
        "tweets.json" = Except.ok 1)
    ∧ (json_loader (fun p => if p = "tweets.json" then some "[1]" else none)
        (fun s => if s = "[1]" then Except.ok 1 else Except.error "Expecting value")
        "not json" = Except.error "Expecting value") := by
  constructor
  · exact (json_loader_branches _ _ "tweets.json").1 "[1]" (by decide)
  · exact (json_loader_branches _ _ "not json").2.2.2 "Expecting value" (by decide)
      rfl

/-- C7: with a configured output path, save writes the given string
verbatim to that path, overwriting whatever was there, and re-reading the
path yields exactly that string; every other path is untouched. -/
theorem save_roundtrip (username : String) (records : List Tweet)
    (path html_content : String) (fs : String → Option String) :
    ∃ fs2, save ⟨username, records, some path⟩ html_content fs = Except.ok fs2
      ∧ fs2 path = some html_content
      ∧ ∀ q, q ≠ path → fs2 q = fs q := by
  refine ⟨fun p => if p = path then some html_content else fs p, rfl, by simp,
    fun q hq => by simp [hq]⟩

/-- Witness for C7 at a concrete path, content and filesystem. -/
theorem save_roundtrip_witness :
    ∃ fs2, save ⟨"u", [], some "out.html"⟩ "<html>x</html>" (fun _ => none)
        = Except.ok fs2
      ∧ fs2 "out.html" = some "<html>x</html>"
      ∧ fs2 "other.html" = none := by
  obtain ⟨fs2, h1, h2, h3⟩ :=
    save_roundtrip "u" [] "out.html" "<html>x</html>" (fun _ => none)
  exact ⟨fs2, h1, h2, by rw [h3 "other.html" (by decide)]⟩

/-- C10: with the default (absent) output path, save fails with an uncaught
TypeError and performs no write: the result is the error, never an updated
filesystem. -/
theorem save_without_path_fails (username : String) (records : List Tweet)
    (html_content : String) (fs : String → Option String) :
    save ⟨username, records, none⟩ html_content fs
      = Except.error "TypeError: expected str, bytes or os.PathLike object, not NoneType" := rfl

/-- C8: generate is a pure function of the username and the loaded records:
two visualizer states agreeing on those (regardless of the configured
output path) produce identical documents, for any fixed timestamp
formatting helper. -/
theorem generate_deterministic (fmt : String → String)
    (v1 v2 : HTMLTweetsVisualizer)
    (hu : v1.username = v2.username) (hj : v1.json_path = v2.json_path) :
    generate fmt v1 = generate fmt v2 := by
  cases v1
  cases v2
  simp_all [generate, generateChunks]

/-- Witness for C8: two states differing only in the output path. -/
theorem generate_deterministic_witness :
    generate id ⟨"u", [sampleTextTweet], none⟩
      = generate id ⟨"u", [sampleTextTweet], some "out.html"⟩ :=
  generate_deterministic id _ _ rfl rfl

/-- C4: on an empty record list, total_pages is 0 and the document has no
page container, no pagination link, and still carries the heading with the
username interpolated. -/
theorem generate_empty_records (fmt : String → String) (username : String)
    (path : Option String) :
    total_pages (List.length ([] : List Tweet)) = 0
    ∧ ∃ cs, generateChunks fmt ⟨username, [], path⟩ = some cs
        ∧ cs.filterMap Chunk.pageOpenId = []
        ∧ cs.filterMap Chunk.pageLinkId = []
        ∧ Chunk.heading username ∈ cs := by
  refine ⟨rfl, headerChunks username ++ footerChunks 0, ?_, ?_, ?_, ?_⟩
  · simp [generateChunks, total_pages, tweets_per_page, traverseOption]
  · simp [headerChunks, footerChunks, Chunk.pageOpenId]
  · simp [headerChunks, footerChunks, Chunk.pageLinkId]
  · simp [headerChunks, footerChunks]

/-- Reading a list at the positions of an interval of indices yields the
corresponding drop/take slice (positions past the end contribute
nothing). -/
theorem filterMap_getElem_range' {α : Type} (l : List α) :
    ∀ (n s : Nat),
      (List.range' s n).filterMap (fun i => l[i]?) = (l.drop s).take n := by
  intro n
  induction n with
  | zero => intro s; simp
  | succ n ih =>
      intro s
      rw [List.range'_succ, List.filterMap_cons]
      cases h : l[s]? with
      | none =>
          have hle : l.length ≤ s := List.getElem?_eq_none_iff.mp h
          rw [ih (s + 1), List.drop_eq_nil_of_le hle,
            List.drop_eq_nil_of_le (by omega), List.take_nil]
          rfl
      | some a =>
          obtain ⟨hlt, ha⟩ := List.getElem?_eq_some_iff.mp h
          rw [ih (s + 1), List.drop_eq_getElem_cons hlt, ha,
            List.take_succ_cons]

/-- Page k's record list is the slice of the records at the zero-based
positions from (k-1)*24 (inclusive) to min(k*24, N) (exclusive). -/
theorem pageTweets_slice (records : List Tweet) (k : Nat) (hk : 1 ≤ k) :
    pageTweets records k
      = (records.drop ((k - 1) * tweets_per_page)).take
          (min (k * tweets_per_page) records.length
            - (k - 1) * tweets_per_page) := by
  unfold pageTweets page_indices page_start
  rw [filterMap_getElem_range']
  congr 1
  obtain ⟨t, rfl⟩ : ∃ t, k = t + 1 := ⟨k - 1, by omega⟩
  simp only [tweets_per_page]
  omega

/-- Page k's record list is also plainly: drop (k-1)*24 records, take 24. -/
theorem pageTweets_take (records : List Tweet) (k : Nat) (hk : 1 ≤ k) :
    pageTweets records k
      = (records.drop ((k - 1) * tweets_per_page)).take tweets_per_page := by
  rw [pageTweets_slice records k hk, List.take_eq_take]
  simp only [List.length_drop]
  obtain ⟨t, rfl⟩ : ∃ t, k = t + 1 := ⟨k - 1, by omega⟩
  simp only [tweets_per_page]
  omega

/-- Concatenating the first m pages' record ranges in page order yields the
first m*24 records. -/
theorem flatten_pageTweets (records : List Tweet) :
    ∀ m, ((List.range' 1 m).map (pageTweets records)).flatten
      = records.take (m * tweets_per_page) := by
  intro m
  induction m with
  | zero => simp
  | succ m ih =>
      rw [List.range'_concat, List.map_append, List.flatten_append, ih]
      simp only [List.map_cons, List.map_nil, List.flatten_cons,
        List.flatten_nil, List.append_nil]
      rw [pageTweets_take records (1 + 1 * m) (by omega),
        show 1 + 1 * m - 1 = m by omega, ← List.take_add]
      congr 1
      simp only [tweets_per_page]
      omega

/-- N records need at least total_pages(N) pages of capacity 24. -/
theorem le_mul_total_pages (n : Nat) : n ≤ total_pages n * tweets_per_page := by
  unfold total_pages tweets_per_page
  omega

/-- C1: generate's page computation: total_pages is the ceiling of N/24;
page k (1-based, 1 ≤ k ≤ total_pages) holds exactly the records at
zero-based positions from (k-1)*24 up to min(k*24, N); and the
concatenation of all pages' record ranges in page order is exactly the
original record sequence (no gaps, overlaps or reordering). -/
theorem generate_pagination_partition (records : List Tweet) :
    total_pages records.length = records.length ⌈/⌉ tweets_per_page
    ∧ (∀ k, 1 ≤ k → k ≤ total_pages records.length →
        pageTweets records k
          = (records.drop ((k - 1) * tweets_per_page)).take
              (min (k * tweets_per_page) records.length
                - (k - 1) * tweets_per_page))
    ∧ ((List.range' 1 (total_pages records.length)).map
        (pageTweets records)).flatten = records := by
  refine ⟨?_, fun k hk _ => pageTweets_slice records k hk, ?_⟩
  · rw [Nat.ceilDiv_eq_add_pred_div]; rfl
  · rw [flatten_pageTweets]
    exact List.take_of_length_le (le_mul_total_pages records.length)

/-- Witness for C1 on a one-record list at page 1. -/
theorem generate_pagination_partition_witness :
    pageTweets [sampleTextTweet] 1
      = (([sampleTextTweet] : List Tweet).drop ((1 - 1) * tweets_per_page)).take
          (min (1 * tweets_per_page) ([sampleTextTweet] : List Tweet).length
            - (1 - 1) * tweets_per_page) :=
  (generate_pagination_partition [sampleTextTweet]).2.1 1 (by decide) (by decide)

/-- C2: each rendered card contains exactly one of the two content blocks.
With falsy available_tweet_text the card holds exactly four accordion
sections titled Archived Tweet, Parsed Archived Tweet, Original Tweet and
Parsed Tweet (in that order) and no plain-text content block; with truthy
available_tweet_text it holds exactly one plain-text content block carrying
the text, the retweet flag and the attributed username, and no accordion
section. -/
theorem card_renders_exactly_one_block (fmt : String → String) (index : Nat)
    (t : Tweet) (cs : List Chunk) (text : String)
    (h : renderTweet fmt index t = some cs)
    (ht : t.get "available_tweet_text" = some text) :
    (truthy text = false →
        cs.filterMap Chunk.accordionKey
          = ["Archived Tweet", "Parsed Archived Tweet", "Original Tweet",
             "Parsed Tweet"]
        ∧ cs.countP Chunk.isAvailableText = 0)
    ∧ (truthy text = true →
        cs.countP Chunk.isAccordion = 0
        ∧ cs.countP Chunk.isAvailableText = 1
        ∧ ∃ is_RT info, t.get "available_tweet_is_RT" = some is_RT
            ∧ t.get "available_tweet_info" = some info
            ∧ Chunk.availableText text is_RT info ∈ cs) := by
  rw [renderTweet, Option.map_eq_some'] at h
  obtain ⟨f, hf, rfl⟩ := h
  constructor
  · intro htr
    rw [readTweetFields, ht, Option.some_bind, if_neg (by simp [htr]),
      Option.some_bind] at hf
    simp only [Option.bind_eq_some] at hf
    obtain ⟨a, ha, b, hb, c, hc, d, hd, e, he, f1, hf1, g, hg, h1, hh1, i1,
      hi1, j, hj, hmk⟩ := hf
    obtain rfl : f = ⟨text, none, a, b, c, d, e, f1, g, h1, i1, j⟩ :=
      (Option.some.injEq _ _).mp hmk.symm
    simp [tweetChunks, iframe_src, htr, Chunk.accordionKey,
      Chunk.isAvailableText, List.countP_cons]
  · intro htr
    rw [readTweetFields, ht, Option.some_bind, if_pos (by simp [htr])] at hf
    simp only [Option.bind_eq_some] at hf
    obtain ⟨af, ⟨is_RT, hrt, info, hinfo, haf⟩, a, ha, b, hb, c, hc, d, hd, e,
      he, f1, hf1, g, hg, h1, hh1, i1, hi1, j, hj, hmk⟩ := hf
    obtain rfl : af = some (is_RT, info) := (Option.some.injEq _ _).mp haf.symm
    obtain rfl : f = ⟨text, some (is_RT, info), a, b, c, d, e, f1, g, h1, i1, j⟩ :=
      (Option.some.injEq _ _).mp hmk.symm
    refine ⟨?_, ?_, is_RT, info, hrt, hinfo, ?_⟩ <;>
      simp [tweetChunks, iframe_src, htr, Chunk.isAccordion,
        Chunk.isAvailableText, List.countP_cons]

/-- Witness for C2: a concrete falsy-text record yields the four accordion
sections and no plain-text block; a concrete truthy-text record yields the
plain-text block and no accordion. -/
theorem card_renders_exactly_one_block_witness :
    ∃ cs1 cs2,
      renderTweet id 0 sampleArchivedTweet = some cs1
      ∧ cs1.filterMap Chunk.accordionKey
          = ["Archived Tweet", "Parsed Archived Tweet", "Original Tweet",
             "Parsed Tweet"]
      ∧ cs1.countP Chunk.isAvailableText = 0
      ∧ renderTweet id 1 sampleTextTweet = some cs2
      ∧ cs2.countP Chunk.isAccordion = 0
      ∧ cs2.countP Chunk.isAvailableText = 1 := by
  obtain ⟨cs1, hcs1⟩ : ∃ cs1, renderTweet id 0 sampleArchivedTweet = some cs1 :=
    ⟨_, rfl⟩
  obtain ⟨cs2, hcs2⟩ : ∃ cs2, renderTweet id 1 sampleTextTweet = some cs2 :=
    ⟨_, rfl⟩
  have h1 := (card_renders_exactly_one_block id 0 sampleArchivedTweet cs1 ""
    hcs1 (by decide)).1 (by decide)
  have h2 := (card_renders_exactly_one_block id 1 sampleTextTweet cs2 "hello"
    hcs2 (by decide)).2 (by decide)
  exact ⟨cs1, cs2, hcs1, h1.1, h1.2, hcs2, h2.1, h2.2.1⟩

/-- A record lacks one of the fields the renderer reads: one of the eleven
unconditionally read fields, or, when available_tweet_text is truthy, one
of the two fields of the plain-text block. -/
def missing_required_field (t : Tweet) : Bool :=
  (t.get "available_tweet_text").isNone
  || ((t.get "available_tweet_text").any truthy
      && ((t.get "available_tweet_is_RT").isNone
        || (t.get "available_tweet_info").isNone))
  || (t.get "archived_tweet_url").isNone
  || (t.get "parsed_archived_tweet_url").isNone
  || (t.get "original_tweet_url").isNone
  || (t.get "parsed_tweet_url").isNone
  || (t.get "archived_urlkey").isNone
  || (t.get "archived_timestamp").isNone
  || (t.get "archived_mimetype").isNone
  || (t.get "archived_statuscode").isNone
  || (t.get "archived_digest").isNone
  || (t.get "archived_length").isNone

/-- If the card's field extraction succeeds, no required field is missing. -/
theorem readTweetFields_some_not_missing (t : Tweet) (f : TweetFields)
    (hf : readTweetFields t = some f) : missing_required_field t = false := by
  rw [readTweetFields] at hf
  simp only [Option.bind_eq_some] at hf
  obtain ⟨text, ht, af, haf, a, ha, b, hb, c, hc, d, hd, e, he, f1, hf1, g,
    hg, h1, hh1, i1, hi1, j, hj, -⟩ := hf
  cases htr : truthy text with
  | false =>
      simp [missing_required_field, ht, htr, ha, hb, hc, hd, he, hf1, hg,
        hh1, hi1, hj]
  | true =>
      rw [if_pos (by simp [htr])] at haf
      simp only [Option.bind_eq_some] at haf
      obtain ⟨is_RT, hrt, info, hinfo, -⟩ := haf
      simp [missing_required_field, ht, htr, hrt, hinfo, ha, hb, hc, hd, he,
        hf1, hg, hh1, hi1, hj]

/-- A missing required field makes the card's field extraction fail. -/
theorem missing_readTweetFields_none (t : Tweet)
    (hm : missing_required_field t = true) : readTweetFields t = none := by
  rcases hrf : readTweetFields t with _ | f
  · rfl
  · have hfalse := readTweetFields_some_not_missing t f hrf
    rw [hfalse] at hm
    cases hm

/-- A traversal fails as soon as one visited element fails. -/
theorem traverseOption_eq_none_of_mem {α β : Type} {f : α → Option β}
    {l : List α} {a : α} (hmem : a ∈ l) (hfa : f a = none) :
    traverseOption f l = none := by
  induction l with
  | nil => cases hmem
  | cons x xs ih =>
      rw [traverseOption]
      rcases List.mem_cons.mp hmem with rfl | hmem2
      · rw [hfa]; rfl
      · cases hx : f x with
        | none => rfl
        | some b => rw [Option.some_bind, ih hmem2]; rfl

/-- The page of record i (1-based page i/24 + 1) is among the generated
pages. -/
theorem mem_range'_total_pages {i n : Nat} (hi : i < n) :
    i / tweets_per_page + 1 ∈ List.range' 1 (total_pages n) := by
  rw [List.mem_range'_1]
  unfold total_pages tweets_per_page
  omega

/-- Record i's position is visited by the card loop of its page. -/
theorem mem_page_indices {i n : Nat} (hi : i < n) :
    i ∈ page_indices n (i / tweets_per_page + 1) := by
  unfold page_indices page_start tweets_per_page
  rw [List.mem_range'_1]
  omega

/-- C6: if any record of the list is missing a required field, generate
produces no output at all: the whole render aborts with the uncaught
lookup failure (no partial or best-effort document). -/
theorem generate_missing_field_aborts (fmt : String → String)
    (username : String) (path : Option String) (records : List Tweet)
    (i : Nat) (t : Tweet) (hit : records[i]? = some t)
    (hm : missing_required_field t = true) :
    generate fmt ⟨username, records, path⟩ = none := by
  have hi : i < records.length := (List.getElem?_eq_some_iff.mp hit).1
  have hrt : renderTweet fmt i t = none := by
    rw [renderTweet, missing_readTweetFields_none t hm]
    rfl
  have hcard : (records[i]?).bind (fun tweet => renderTweet fmt i tweet)
      = none := by
    rw [hit, Option.some_bind, hrt]
  have hpage : renderPage fmt records (i / tweets_per_page + 1) = none := by
    rw [renderPage, traverseOption_eq_none_of_mem (mem_page_indices hi) hcard]
    rfl
  have htrav : traverseOption (renderPage fmt records)
      (List.range' 1 (total_pages records.length)) = none :=
    traverseOption_eq_none_of_mem (mem_range'_total_pages hi) hpage
  rw [generate, Option.map_eq_none', generateChunks]
  simp only [htrav]
  rfl

/-- Witness for C6: a record carrying only the availability flag (all URL
and metadata fields missing) makes generate return nothing. -/
theorem generate_missing_field_aborts_witness :
    generate id ⟨"u", [sampleIncompleteTweet], none⟩ = none :=
  generate_missing_field_aborts id "u" none [sampleIncompleteTweet] 0
    sampleIncompleteTweet (by decide) (by decide)

/-- Every chunk of a card is a literal text fragment, an accordion section
of that card's global index, a plain-text content block, or the
unconditional field block. -/
theorem tweetChunks_shapes (fmt : String → String) (i : Nat) (f : TweetFields)
    (c : Chunk) (hc : c ∈ tweetChunks fmt i f) :
    (∃ s, c = Chunk.text s) ∨ (∃ key url, c = Chunk.accordion i key url)
    ∨ (∃ a b c2, c = Chunk.availableText a b c2)
    ∨ (∃ th, c = Chunk.alwaysFields f th) := by
  cases htr : truthy f.available_tweet_text <;>
    rcases haf : f.available_fields with _ | ⟨rt, info⟩ <;>
    simp only [tweetChunks, htr, haf, iframe_src, Bool.false_eq_true,
      if_false, if_true, List.mem_cons, List.mem_append, List.mem_map,
      List.mem_singleton, List.map_cons, List.map_nil, List.not_mem_nil,
      or_false, false_or, List.append_nil, List.nil_append] at hc <;>
    casesm* _ ∨ _ <;> subst_vars <;> simp

/-- A successful traversal relates inputs and outputs pointwise. -/
theorem traverseOption_forall2 {α β : Type} {f : α → Option β} :
    ∀ {l : List α} {bs : List β}, traverseOption f l = some bs →
      List.Forall₂ (fun a b => f a = some b) l bs := by
  intro l
  induction l with
  | nil =>
      intro bs h
      rw [traverseOption] at h
      obtain rfl : bs = [] := ((Option.some.injEq _ _).mp h).symm
      exact List.Forall₂.nil
  | cons x xs ih =>
      intro bs h
      rw [traverseOption] at h
      simp only [Option.bind_eq_some] at h
      obtain ⟨b, hb, bs2, hbs2, hbs⟩ := h
      obtain rfl : bs = b :: bs2 := ((Option.some.injEq _ _).mp hbs).symm
      exact List.Forall₂.cons hb (ih hbs2)

/-- Each element of a traversal's output comes from some visited input. -/
theorem forall2_mem_right {α β : Type} {R : α → β → Prop} :
    ∀ {l : List α} {bs : List β}, List.Forall₂ R l bs → ∀ b ∈ bs,
      ∃ a ∈ l, R a b := by
  intro l
  induction l with
  | nil => intro bs h b hb; cases h; cases hb
  | cons x xs ih =>
      intro bs h b hb
      cases h with
      | cons hx hxs =>
          rcases List.mem_cons.mp hb with rfl | hb2
          · exact ⟨x, List.mem_cons_self x xs, hx⟩
          · obtain ⟨a, ha, hr⟩ := ih hxs b hb2
            exact ⟨a, List.mem_cons_of_mem x ha, hr⟩

/-- A rendered card contains no page container and no pagination link. -/
theorem card_no_pageIds (fmt : String → String) (records : List Tweet)
    (index : Nat) (card : List Chunk)
    (h : (records[index]?).bind (fun tweet => renderTweet fmt index tweet)
        = some card) :
    card.filterMap Chunk.pageOpenId = []
    ∧ card.filterMap Chunk.pageLinkId = [] := by
  simp only [Option.bind_eq_some] at h
  obtain ⟨tweet, -, hr⟩ := h
  rw [renderTweet, Option.map_eq_some'] at hr
  obtain ⟨f, -, rfl⟩ := hr
  constructor <;>
    · rw [List.filterMap_eq_nil_iff]
      intro c hc
      rcases tweetChunks_shapes fmt index f c hc with ⟨s, rfl⟩ | ⟨k, u, rfl⟩
        | ⟨a, b, c2, rfl⟩ | ⟨th, rfl⟩ <;> rfl

/-- A rendered page block yields exactly its own page container id and no
pagination link. -/
theorem renderPage_pageIds (fmt : String → String) (records : List Tweet)
    (page : Nat) (pg : List Chunk) (h : renderPage fmt records page = some pg) :
    pg.filterMap Chunk.pageOpenId = [page]
    ∧ pg.filterMap Chunk.pageLinkId = [] := by
  rw [renderPage] at h
  simp only [Option.bind_eq_some] at h
  obtain ⟨cards, hc, hpg⟩ := h
  obtain rfl : pg = Chunk.pageOpen page
      :: Chunk.text ("<div class=\"container\">\n")
      :: (cards.flatten ++ [Chunk.text ("</div>\n</div>\n")]) :=
    ((Option.some.injEq _ _).mp hpg).symm
  have hcards : ∀ card ∈ cards, card.filterMap Chunk.pageOpenId = []
      ∧ card.filterMap Chunk.pageLinkId = [] := by
    intro card hcard
    obtain ⟨index, -, hcardeq⟩ :=
      forall2_mem_right (traverseOption_forall2 hc) card hcard
    exact card_no_pageIds fmt records index card hcardeq
  have hflat1 : cards.flatten.filterMap Chunk.pageOpenId = [] := by
    rw [List.filterMap_eq_nil_iff]
    intro c hcmem
    obtain ⟨card, hcard, hcmem2⟩ := List.mem_flatten.mp hcmem
    have := (hcards card hcard).1
    rw [List.filterMap_eq_nil_iff] at this
    exact this c hcmem2
  have hflat2 : cards.flatten.filterMap Chunk.pageLinkId = [] := by
    rw [List.filterMap_eq_nil_iff]
    intro c hcmem
    obtain ⟨card, hcard, hcmem2⟩ := List.mem_flatten.mp hcmem
    have := (hcards card hcard).2
    rw [List.filterMap_eq_nil_iff] at this
    exact this c hcmem2
  constructor <;>
    simp [List.filterMap_cons, List.filterMap_append, hflat1, hflat2,
      Chunk.pageOpenId, Chunk.pageLinkId]

/-- The page blocks of pages s, s+1, ... contribute exactly the container
ids s, s+1, ... in order, and no pagination link. -/
theorem pages_flatten_pageIds (fmt : String → String) (records : List Tweet) :
    ∀ (n s : Nat) (pages : List (List Chunk)),
      traverseOption (renderPage fmt records) (List.range' s n) = some pages →
      pages.flatten.filterMap Chunk.pageOpenId = List.range' s n
      ∧ pages.flatten.filterMap Chunk.pageLinkId = [] := by
  intro n
  induction n with
  | zero =>
      intro s pages h
      rw [List.range', traverseOption] at h
      obtain rfl : pages = [] := ((Option.some.injEq _ _).mp h).symm
      simp
  | succ n ih =>
      intro s pages h
      rw [List.range'_succ, traverseOption] at h
      simp only [Option.bind_eq_some] at h
      obtain ⟨pg, hpg, rest, hrest, hp⟩ := h
      obtain rfl : pages = pg :: rest := ((Option.some.injEq _ _).mp hp).symm
      obtain ⟨h1, h2⟩ := renderPage_pageIds fmt records s pg hpg
      obtain ⟨h3, h4⟩ := ih (s + 1) rest hrest
      rw [List.flatten_cons, List.filterMap_append, List.filterMap_append,
        h1, h2, h3, h4, List.range'_succ]
      exact ⟨rfl, rfl⟩

/-- The fixed header contributes no page container and no pagination
link. -/
theorem headerChunks_pageIds (username : String) :
    (headerChunks username).filterMap Chunk.pageOpenId = []
    ∧ (headerChunks username).filterMap Chunk.pageLinkId = [] := by
  constructor <;> simp [headerChunks, Chunk.pageOpenId, Chunk.pageLinkId]

/-- The footer contributes no page container and exactly the pagination
links 1..tp in order. -/
theorem footerChunks_pageIds (tp : Nat) :
    (footerChunks tp).filterMap Chunk.pageOpenId = []
    ∧ (footerChunks tp).filterMap Chunk.pageLinkId = List.range' 1 tp := by
  constructor <;>
    simp only [footerChunks, List.filterMap_append, List.filterMap_cons,
      List.filterMap_map, List.filterMap_nil,
      show Chunk.pageOpenId ∘ Chunk.pageLink = fun _ => none from rfl,
      show Chunk.pageLinkId ∘ Chunk.pageLink = some from funext fun p => rfl,
      List.filterMap_some] <;>
    simp [Chunk.pageOpenId, Chunk.pageLinkId]

/-- C3: the generated document contains exactly total_pages hidden page
container divs, with ids page_1 .. page_total_pages in order, and exactly
total_pages pagination links, numbered 1 .. total_pages in order. -/
theorem document_page_containers_and_links (fmt : String → String)
    (v : HTMLTweetsVisualizer) (cs : List Chunk)
    (h : generateChunks fmt v = some cs) :
    cs.filterMap Chunk.pageOpenId
      = List.range' 1 (total_pages v.json_path.length)
    ∧ cs.filterMap Chunk.pageLinkId
      = List.range' 1 (total_pages v.json_path.length) := by
  rw [generateChunks] at h
  simp only [Option.bind_eq_some] at h
  obtain ⟨pages, hp, hcs⟩ := h
  obtain rfl : cs = headerChunks v.username ++ pages.flatten
      ++ footerChunks (total_pages v.json_path.length) :=
    ((Option.some.injEq _ _).mp hcs).symm
  obtain ⟨h1, h2⟩ :=
    pages_flatten_pageIds fmt v.json_path (total_pages v.json_path.length) 1
      pages hp
  obtain ⟨h3, h4⟩ := headerChunks_pageIds v.username
  obtain ⟨h5, h6⟩ := footerChunks_pageIds (total_pages v.json_path.length)
  rw [List.filterMap_append, List.filterMap_append, List.filterMap_append,
    List.filterMap_append, h1, h2, h3, h4, h5, h6]
  exact ⟨by simp, by simp⟩

/-- Witness for C3 on a one-record list: one page container and one
pagination link, both numbered 1. -/
theorem document_page_containers_and_links_witness :
    ∃ cs, generateChunks id ⟨"u", [sampleArchivedTweet], none⟩ = some cs
      ∧ cs.filterMap Chunk.pageOpenId = [1]
      ∧ cs.filterMap Chunk.pageLinkId = [1] := by
  obtain ⟨cs, hcs⟩ :
      ∃ cs, generateChunks id ⟨"u", [sampleArchivedTweet], none⟩ = some cs :=
    ⟨_, rfl⟩
  obtain ⟨h1, h2⟩ := document_page_containers_and_links id
    ⟨"u", [sampleArchivedTweet], none⟩ cs hcs
  exact ⟨cs, hcs, by simpa using h1, by simpa using h2⟩
theorem digitChar_isDigit : ∀ m, m < 10 → (Nat.digitChar m).isDigit = true := by decide

theorem digitChar_toNat : ∀ m, m < 10 → (Nat.digitChar m).toNat - 48 = m := by decide

theorem toDigitsCore_digits (fuel : Nat) :
    ∀ (n : Nat) (ds : List Char), (∀ c ∈ ds, c.isDigit = true) →
      ∀ c ∈ Nat.toDigitsCore 10 fuel n ds, c.isDigit = true := by
  induction fuel with
  | zero => intro n ds hds c hc; exact hds c hc
  | succ fuel ih =>
      intro n ds hds c hc
      rw [Nat.toDigitsCore] at hc
      by_cases h0 : n / 10 = 0
      · rw [if_pos h0] at hc
        rcases List.mem_cons.mp hc with rfl | hc2
        · exact digitChar_isDigit _ (Nat.mod_lt _ (by norm_num))
        · exact hds c hc2
      · rw [if_neg h0] at hc
        refine ih (n / 10) (Nat.digitChar (n % 10) :: ds) ?_ c hc
        intro c2 hc2
        rcases List.mem_cons.mp hc2 with rfl | hc3
        · exact digitChar_isDigit _ (Nat.mod_lt _ (by norm_num))
        · exact hds c2 hc3

theorem repr_digits (n : Nat) : ∀ c ∈ (Nat.repr n).data, c.isDigit = true := by
  intro c hc
  have : (Nat.repr n).data = Nat.toDigits 10 n := rfl
  rw [this, Nat.toDigits] at hc
  exact toDigitsCore_digits (n + 1) n [] (by simp) c hc

theorem toDigitsCore_append (fuel : Nat) :
    ∀ (n : Nat) (ds : List Char),
      Nat.toDigitsCore 10 fuel n ds = Nat.toDigitsCore 10 fuel n [] ++ ds := by
  induction fuel with
  | zero => intro n ds; rw [Nat.toDigitsCore, Nat.toDigitsCore]; rfl
  | succ fuel ih =>
      intro n ds
      rw [Nat.toDigitsCore, Nat.toDigitsCore]
      by_cases h0 : n / 10 = 0
      · rw [if_pos h0, if_pos h0]; rfl
      · rw [if_neg h0, if_neg h0, ih (n / 10) (Nat.digitChar (n % 10) :: ds),
          ih (n / 10) [Nat.digitChar (n % 10)], List.append_assoc]
        rfl

theorem toDigitsCore_fuel :
    ∀ (fuel1 fuel2 n : Nat), n < fuel1 → n < fuel2 →
      Nat.toDigitsCore 10 fuel1 n [] = Nat.toDigitsCore 10 fuel2 n [] := by
  intro fuel1
  induction fuel1 with
  | zero => intro fuel2 n h1; omega
  | succ fuel1 ih =>
      intro fuel2 n h1 h2
      cases fuel2 with
      | zero => omega
      | succ fuel2 =>
          rw [Nat.toDigitsCore, Nat.toDigitsCore]
          by_cases h0 : n / 10 = 0
          · rw [if_pos h0, if_pos h0]
          · rw [if_neg h0, if_neg h0,
              toDigitsCore_append fuel1 (n / 10) [Nat.digitChar (n % 10)],
              toDigitsCore_append fuel2 (n / 10) [Nat.digitChar (n % 10)],
              ih fuel2 (n / 10) (by omega) (by omega)]

theorem decode_toDigits (n : Nat) :
    (Nat.toDigits 10 n).foldl (fun a c => 10 * a + (c.toNat - 48)) 0 = n := by
  induction n using Nat.strong_induction_on with
  | _ n ih =>
      rw [Nat.toDigits, Nat.toDigitsCore]
      by_cases h0 : n / 10 = 0
      · rw [if_pos h0]
        simp only [List.foldl_cons, List.foldl_nil]
        rw [digitChar_toNat _ (Nat.mod_lt _ (by norm_num))]
        omega
      · rw [if_neg h0,
          toDigitsCore_append n (n / 10) [Nat.digitChar (n % 10)],
          toDigitsCore_fuel n (n / 10 + 1) (n / 10) (by omega) (by omega)]
        rw [List.foldl_append]
        have := ih (n / 10) (by omega)
        rw [Nat.toDigits] at this
        rw [this]
        simp only [List.foldl_cons, List.foldl_nil]
        rw [digitChar_toNat _ (Nat.mod_lt _ (by norm_num))]
        omega

theorem repr_injective : Function.Injective Nat.repr := by
  intro m n h
  have hd : Nat.toDigits 10 m = Nat.toDigits 10 n := congrArg String.data h
  have hm := decode_toDigits m
  have hn := decode_toDigits n
  rw [hd] at hm
  omega

/-- The HTML element ids occurring in the generated document, in structured
form; rendering one yields the literal id string the document carries. -/
inductive ElemId where
  | loadingFirstPage
  | page (p : Nat)
  | pageLink (p : Nat)
  | tab (index : Nat) (key_cleaned : String)
  | loading (index : Nat) (key_cleaned : String)
  | iframe (index : Nat) (key_cleaned : String)
deriving DecidableEq

/-- The literal id string of a structured element id; these are exactly the
strings the renderers interpolate into id attributes. -/
def ElemId.render : ElemId → String
  | .loadingFirstPage => "loading_first_page"
  | .page p => page_id p
  | .pageLink p => page_link_id p
  | .tab index key_cleaned => elem_id ("tab") index key_cleaned
  | .loading index key_cleaned => elem_id ("loading") index key_cleaned
  | .iframe index key_cleaned => elem_id ("iframe") index key_cleaned

/-- The element ids a chunk's rendering declares (id attributes emitted by
the corresponding source lines). -/
def Chunk.elementIds : Chunk → List ElemId
  | .text _ => []
  | .heading _ => []
  | .loadingFirstPage => [.loadingFirstPage]
  | .pageOpen page => [.page page]
  | .accordion index key _ =>
      [.tab index (key_cleaned_of key), .loading index (key_cleaned_of key),
       .iframe index (key_cleaned_of key)]
  | .availableText .. => []
  | .alwaysFields .. => []
  | .pageLink page => [.pageLink page]
  | .paginationScript _ => []

/-- All element ids of a chunk list, in document order. -/
def chunksElemIds (cs : List Chunk) : List ElemId :=
  (cs.map Chunk.elementIds).flatten

/-- All element id strings of a chunk list, in document order. -/
def documentIds (cs : List Chunk) : List String :=
  (chunksElemIds cs).map ElemId.render

theorem repr_data_ne_letter_head (p : Nat) (c : Char) (hc : c.isDigit = false)
    (l : List Char) : (Nat.repr p).data ≠ c :: l := by
  intro h
  have hm : c ∈ (Nat.repr p).data := by rw [h]; exact List.mem_cons_self c l
  have := repr_digits p c hm
  rw [hc] at this
  cases this

theorem digits_append_underscore_ne_letter_head (u : List Char)
    (hu : ∀ c ∈ u, c.isDigit = true) (c : Char) (hc : c.isDigit = false)
    (hne : c ≠ '_') (k l : List Char) : u ++ '_' :: k ≠ c :: l := by
  intro h
  cases u with
  | nil =>
      simp only [List.nil_append, List.cons.injEq] at h
      exact hne h.1.symm
  | cons d u2 =>
      simp only [List.cons_append, List.cons.injEq] at h
      have := hu d (List.mem_cons_self d u2)
      rw [h.1, hc] at this
      cases this

theorem digit_append_underscore_inj :
    ∀ (u v k kp : List Char), (∀ c ∈ u, c.isDigit = true) →
      (∀ c ∈ v, c.isDigit = true) →
      u ++ '_' :: k = v ++ '_' :: kp → u = v ∧ k = kp := by
  intro u
  induction u with
  | nil =>
      intro v k kp _ hv h
      cases v with
      | nil =>
          simp only [List.nil_append, List.cons.injEq] at h
          exact ⟨rfl, h.2⟩
      | cons d v2 =>
          exfalso
          simp only [List.nil_append, List.cons_append, List.cons.injEq] at h
          have := hv d (List.mem_cons_self d v2)
          rw [← h.1] at this
          exact absurd this (by decide)
  | cons d u2 ih =>
      intro v k kp hu hv h
      cases v with
      | nil =>
          exfalso
          simp only [List.nil_append, List.cons_append, List.cons.injEq] at h
          have := hu d (List.mem_cons_self d u2)
          rw [h.1] at this
          exact absurd this (by decide)
      | cons e v2 =>
          simp only [List.cons_append, List.cons.injEq] at h
          obtain ⟨rfl, h2⟩ := h
          obtain ⟨h3, h4⟩ := ih v2 k kp
            (fun c hc => hu c (List.mem_cons_of_mem _ hc))
            (fun c hc => hv c (List.mem_cons_of_mem _ hc)) h2
          exact ⟨by rw [h3], h4⟩

theorem elemId_render_injective : Function.Injective ElemId.render := by
  intro x y h
  rcases x with _ | p | p | ⟨i, k⟩ | ⟨i, k⟩ | ⟨i, k⟩ <;>
    rcases y with _ | q | q | ⟨j, k2⟩ | ⟨j, k2⟩ | ⟨j, k2⟩
  · rfl
  · simp [ElemId.render, page_id, String.ext_iff, String.data_append] at h
  · simp [ElemId.render, page_link_id, String.ext_iff, String.data_append] at h
  · simp [ElemId.render, elem_id, String.ext_iff, String.data_append] at h
  · exfalso
    have hd : (Nat.repr j).data ++ '_' :: k2.data
        = 'f' :: 'i' :: 'r' :: 's' :: 't' :: '_' :: 'p' :: 'a' :: 'g' :: 'e' :: [] := by
      symm
      simpa [ElemId.render, elem_id, String.data_append]
        using congrArg String.data h
    exact digits_append_underscore_ne_letter_head _ (repr_digits j) 'f'
      (by decide) (by decide) _ _ hd
  · simp [ElemId.render, elem_id, String.ext_iff, String.data_append] at h
  · simp [ElemId.render, page_id, String.ext_iff, String.data_append] at h
  · have hd : (Nat.repr p).data = (Nat.repr q).data := by
      simpa [ElemId.render, page_id, String.data_append]
        using congrArg String.data h
    rw [repr_injective (String.ext hd)]
  · exfalso
    have hd : (Nat.repr p).data = 'l' :: 'i' :: 'n' :: 'k' :: '_' :: (Nat.repr q).data := by
      simpa [ElemId.render, page_id, page_link_id, String.data_append]
        using congrArg String.data h
    exact repr_data_ne_letter_head p 'l' (by decide) _ hd
  · simp [ElemId.render, page_id, elem_id, String.ext_iff, String.data_append] at h
  · simp [ElemId.render, page_id, elem_id, String.ext_iff, String.data_append] at h
  · simp [ElemId.render, page_id, elem_id, String.ext_iff, String.data_append] at h
  · simp [ElemId.render, page_link_id, String.ext_iff, String.data_append] at h
  · exfalso
    have hd : (Nat.repr q).data = 'l' :: 'i' :: 'n' :: 'k' :: '_' :: (Nat.repr p).data := by
      symm
      simpa [ElemId.render, page_id, page_link_id, String.data_append]
        using congrArg String.data h
    exact repr_data_ne_letter_head q 'l' (by decide) _ hd
  · have hd : (Nat.repr p).data = (Nat.repr q).data := by
      simpa [ElemId.render, page_link_id, String.data_append]
        using congrArg String.data h
    rw [repr_injective (String.ext hd)]
  · simp [ElemId.render, page_link_id, elem_id, String.ext_iff, String.data_append] at h
  · simp [ElemId.render, page_link_id, elem_id, String.ext_iff, String.data_append] at h
  · simp [ElemId.render, page_link_id, elem_id, String.ext_iff, String.data_append] at h
  · simp [ElemId.render, elem_id, String.ext_iff, String.data_append] at h
  · simp [ElemId.render, page_id, elem_id, String.ext_iff, String.data_append] at h
  · simp [ElemId.render, page_link_id, elem_id, String.ext_iff, String.data_append] at h
  · have hd : (Nat.repr i).data ++ '_' :: k.data
        = (Nat.repr j).data ++ '_' :: k2.data := by
      simpa [ElemId.render, elem_id, String.data_append]
        using congrArg String.data h
    obtain ⟨h1, h2⟩ := digit_append_underscore_inj _ _ _ _
      (repr_digits i) (repr_digits j) hd
    rw [repr_injective (String.ext h1), String.ext h2]
  · simp [ElemId.render, elem_id, String.ext_iff, String.data_append] at h
  · simp [ElemId.render, elem_id, String.ext_iff, String.data_append] at h
  · exfalso
    have hd : (Nat.repr i).data ++ '_' :: k.data
        = 'f' :: 'i' :: 'r' :: 's' :: 't' :: '_' :: 'p' :: 'a' :: 'g' :: 'e' :: [] := by
      simpa [ElemId.render, elem_id, String.data_append]
        using congrArg String.data h
    exact digits_append_underscore_ne_letter_head _ (repr_digits i) 'f'
      (by decide) (by decide) _ _ hd
  · simp [ElemId.render, page_id, elem_id, String.ext_iff, String.data_append] at h
  · simp [ElemId.render, page_link_id, elem_id, String.ext_iff, String.data_append] at h
  · simp [ElemId.render, elem_id, String.ext_iff, String.data_append] at h
  · have hd : (Nat.repr i).data ++ '_' :: k.data
        = (Nat.repr j).data ++ '_' :: k2.data := by
      simpa [ElemId.render, elem_id, String.data_append]
        using congrArg String.data h
    obtain ⟨h1, h2⟩ := digit_append_underscore_inj _ _ _ _
      (repr_digits i) (repr_digits j) hd
    rw [repr_injective (String.ext h1), String.ext h2]
  · simp [ElemId.render, elem_id, String.ext_iff, String.data_append] at h
  · simp [ElemId.render, elem_id, String.ext_iff, String.data_append] at h
  · simp [ElemId.render, page_id, elem_id, String.ext_iff, String.data_append] at h
  · simp [ElemId.render, page_link_id, elem_id, String.ext_iff, String.data_append] at h
  · simp [ElemId.render, elem_id, String.ext_iff, String.data_append] at h
  · simp [ElemId.render, elem_id, String.ext_iff, String.data_append] at h
  · have hd : (Nat.repr i).data ++ '_' :: k.data
        = (Nat.repr j).data ++ '_' :: k2.data := by
      simpa [ElemId.render, elem_id, String.data_append]
        using congrArg String.data h
    obtain ⟨h1, h2⟩ := digit_append_underscore_inj _ _ _ _
      (repr_digits i) (repr_digits j) hd
    rw [repr_injective (String.ext h1), String.ext h2]

theorem chunksElemIds_append (a b : List Chunk) :
    chunksElemIds (a ++ b) = chunksElemIds a ++ chunksElemIds b := by
  simp [chunksElemIds, List.map_append, List.flatten_append]

theorem card_elemIds (fmt : String → String) (records : List Tweet)
    (index : Nat) (card : List Chunk)
    (h : (records[index]?).bind (fun tweet => renderTweet fmt index tweet)
        = some card) :
    (chunksElemIds card).Nodup
    ∧ ∀ e ∈ chunksElemIds card, ∃ kc,
        e = ElemId.tab index kc ∨ e = ElemId.loading index kc
        ∨ e = ElemId.iframe index kc := by
  simp only [Option.bind_eq_some] at h
  obtain ⟨tweet, -, hr⟩ := h
  rw [renderTweet, Option.map_eq_some'] at hr
  obtain ⟨f, -, rfl⟩ := hr
  cases htr : truthy f.available_tweet_text <;>
    rcases haf : f.available_fields with _ | ⟨rt, info⟩ <;>
    simp only [chunksElemIds, tweetChunks, htr, haf, iframe_src,
      Bool.false_eq_true, if_false, if_true, List.map_cons, List.map_nil,
      List.map_append, List.flatten_cons, List.flatten_nil,
      List.flatten_append, Chunk.elementIds, List.append_nil,
      List.nil_append, List.cons_append,
      show key_cleaned_of ("Archived Tweet") = "Archived_Tweet" from rfl,
      show key_cleaned_of ("Parsed Archived Tweet") = "Parsed_Archived_Tweet" from rfl,
      show key_cleaned_of ("Original Tweet") = "Original_Tweet" from rfl,
      show key_cleaned_of ("Parsed Tweet") = "Parsed_Tweet" from rfl] <;>
    refine ⟨?_, fun e he => ?_⟩
  all_goals first
    | exact List.nodup_nil
    | (simp only [List.mem_cons, List.not_mem_nil, or_false] at he
       rcases he with rfl|rfl|rfl|rfl|rfl|rfl|rfl|rfl|rfl|rfl|rfl|rfl <;>
         first
           | exact ⟨_, Or.inl rfl⟩
           | exact ⟨_, Or.inr (Or.inl rfl)⟩
           | exact ⟨_, Or.inr (Or.inr rfl)⟩)
    | (cases he)
    | simp

theorem mem_page_indices_iff {i n p : Nat} :
    i ∈ page_indices n p ↔
      page_start p ≤ i ∧ i < min (page_start p + tweets_per_page) n := by
  unfold page_indices
  rw [List.mem_range'_1]
  omega

/-- Shape of the element ids contributed by the block of page p. -/
def pageElem (n p : Nat) (e : ElemId) : Prop :=
  e = ElemId.page p
  ∨ ∃ index kc, index ∈ page_indices n p
      ∧ (e = ElemId.tab index kc ∨ e = ElemId.loading index kc
        ∨ e = ElemId.iframe index kc)

theorem pageElem_disjoint {n p q : Nat} {e : ElemId} (hp : 1 ≤ p) (hq : 1 ≤ q)
    (hne : p ≠ q) (h1 : pageElem n p e) (h2 : pageElem n q e) : False := by
  rcases h1 with rfl | ⟨i1, kc1, hi1, he1⟩
  · rcases h2 with h2 | ⟨i2, kc2, hi2, he2⟩
    · exact hne (ElemId.page.inj h2)
    · rcases he2 with h | h | h <;> cases h
  · rcases h2 with rfl | ⟨i2, kc2, hi2, he2⟩
    · rcases he1 with h | h | h <;> cases h
    · have hieq : i1 = i2 := by
        rcases he1 with rfl | rfl | rfl <;> rcases he2 with h | h | h <;>
          first
            | exact (ElemId.tab.inj h).1
            | exact (ElemId.loading.inj h).1
            | exact (ElemId.iframe.inj h).1
            | cases h
      subst hieq
      rw [mem_page_indices_iff] at hi1 hi2
      unfold page_start tweets_per_page at hi1 hi2
      obtain ⟨a, rfl⟩ : ∃ a, p = a + 1 := ⟨p - 1, by omega⟩
      obtain ⟨b, rfl⟩ : ∃ b, q = b + 1 := ⟨q - 1, by omega⟩
      simp only [Nat.add_sub_cancel] at hi1 hi2
      omega

/-- The cards of distinct global indices contribute disjoint, individually
duplicate-free id lists. -/
theorem cards_elemIds_nodup (fmt : String → String) (records : List Tweet) :
    ∀ {idx : List Nat} {cards : List (List Chunk)},
      List.Forall₂ (fun index card =>
        (records[index]?).bind (fun tweet => renderTweet fmt index tweet)
          = some card) idx cards →
      idx.Nodup →
      ((cards.map chunksElemIds).flatten).Nodup
      ∧ ∀ e ∈ (cards.map chunksElemIds).flatten, ∃ index kc, index ∈ idx
          ∧ (e = ElemId.tab index kc ∨ e = ElemId.loading index kc
            ∨ e = ElemId.iframe index kc) := by
  intro idx cards hf
  induction hf with
  | nil => simp
  | @cons i card idxs cards2 hx hxs ih =>
      intro hnd
      obtain ⟨hnd1, hnd2⟩ := List.nodup_cons.mp hnd
      obtain ⟨ihn, ihs⟩ := ih hnd2
      obtain ⟨cn, cshape⟩ := card_elemIds fmt records i card hx
      rw [List.map_cons, List.flatten_cons]
      constructor
      · rw [List.nodup_append]
        refine ⟨cn, ihn, fun e he1 he2 => ?_⟩
        obtain ⟨kc, hkc⟩ := cshape e he1
        obtain ⟨i2, kc2, hi2, hkc2⟩ := ihs e he2
        have : i = i2 := by
          rcases hkc with rfl | rfl | rfl <;> rcases hkc2 with h | h | h <;>
            first
              | exact (ElemId.tab.inj h).1
              | exact (ElemId.loading.inj h).1
              | exact (ElemId.iframe.inj h).1
              | cases h
        exact hnd1 (this ▸ hi2)
      · intro e he
        rcases List.mem_append.mp he with he | he
        · obtain ⟨kc, hkc⟩ := cshape e he
          exact ⟨i, kc, List.mem_cons_self i idxs, hkc⟩
        · obtain ⟨i2, kc2, hi2, hkc2⟩ := ihs e he
          exact ⟨i2, kc2, List.mem_cons_of_mem i hi2, hkc2⟩

theorem chunksElemIds_cons (c : Chunk) (cs : List Chunk) :
    chunksElemIds (c :: cs) = c.elementIds ++ chunksElemIds cs := rfl

theorem chunksElemIds_flatten (L : List (List Chunk)) :
    chunksElemIds L.flatten = (L.map chunksElemIds).flatten := by
  induction L with
  | nil => rfl
  | cons x xs ih =>
      rw [List.flatten_cons, chunksElemIds_append, ih, List.map_cons,
        List.flatten_cons]

/-- A page block's ids: its page container id followed by its cards'
accordion ids; duplicate-free and all of shape pageElem. -/
theorem renderPage_elemIds (fmt : String → String) (records : List Tweet)
    (page : Nat) (pg : List Chunk) (h : renderPage fmt records page = some pg) :
    (chunksElemIds pg).Nodup
    ∧ ∀ e ∈ chunksElemIds pg, pageElem records.length page e := by
  rw [renderPage] at h
  simp only [Option.bind_eq_some] at h
  obtain ⟨cards, hc, hpg⟩ := h
  obtain rfl : pg = Chunk.pageOpen page
      :: Chunk.text ("<div class=\"container\">\n")
      :: (cards.flatten ++ [Chunk.text ("</div>\n</div>\n")]) :=
    ((Option.some.injEq _ _).mp hpg).symm
  obtain ⟨cardsn, cardss⟩ := cards_elemIds_nodup fmt records
    (traverseOption_forall2 hc) (List.nodup_range' _ _)
  have hids : chunksElemIds (Chunk.pageOpen page
      :: Chunk.text ("<div class=\"container\">\n")
      :: (cards.flatten ++ [Chunk.text ("</div>\n</div>\n")]))
      = ElemId.page page :: (cards.map chunksElemIds).flatten := by
    rw [chunksElemIds_cons, chunksElemIds_cons, chunksElemIds_append,
      chunksElemIds_flatten]
    simp [Chunk.elementIds, chunksElemIds]
  rw [hids]
  constructor
  · rw [List.nodup_cons]
    refine ⟨fun hmem => ?_, cardsn⟩
    obtain ⟨i2, kc2, hi2, hkc2⟩ := cardss _ hmem
    rcases hkc2 with h | h | h <;> cases h
  · intro e he
    rcases List.mem_cons.mp he with rfl | he2
    · exact Or.inl rfl
    · obtain ⟨i2, kc2, hi2, hkc2⟩ := cardss e he2
      exact Or.inr ⟨i2, kc2, hi2, hkc2⟩

/-- The page blocks of pages s, s+1, ...: duplicate-free ids, each of
pageElem shape for its page. -/
theorem pages_elemIds (fmt : String → String) (records : List Tweet) :
    ∀ (n s : Nat) (pages : List (List Chunk)),
      traverseOption (renderPage fmt records) (List.range' s n) = some pages →
      1 ≤ s →
      ((pages.map chunksElemIds).flatten).Nodup
      ∧ ∀ e ∈ (pages.map chunksElemIds).flatten,
          ∃ p, s ≤ p ∧ p < s + n ∧ pageElem records.length p e := by
  intro n
  induction n with
  | zero =>
      intro s pages h hs
      rw [List.range', traverseOption] at h
      obtain rfl : pages = [] := ((Option.some.injEq _ _).mp h).symm
      simp
  | succ n ih =>
      intro s pages h hs
      rw [List.range'_succ, traverseOption] at h
      simp only [Option.bind_eq_some] at h
      obtain ⟨pg, hpg, rest, hrest, hp⟩ := h
      obtain rfl : pages = pg :: rest := ((Option.some.injEq _ _).mp hp).symm
      obtain ⟨pgn, pgs⟩ := renderPage_elemIds fmt records s pg hpg
      obtain ⟨restn, rests⟩ := ih (s + 1) rest hrest (by omega)
      rw [List.map_cons, List.flatten_cons]
      constructor
      · rw [List.nodup_append]
        refine ⟨pgn, restn, fun e he1 he2 => ?_⟩
        obtain ⟨p2, hp2a, hp2b, hp2e⟩ := rests e he2
        exact pageElem_disjoint hs (by omega) (by omega) (pgs e he1) hp2e
      · intro e he
        rcases List.mem_append.mp he with he | he
        · exact ⟨s, le_refl s, by omega, pgs e he⟩
        · obtain ⟨p2, hp2a, hp2b, hp2e⟩ := rests e he
          exact ⟨p2, by omega, by omega, hp2e⟩

/-- The header declares exactly the loading paragraph's id. -/
theorem headerChunks_elemIds (username : String) :
    chunksElemIds (headerChunks username) = [ElemId.loadingFirstPage] := by
  simp [headerChunks, chunksElemIds, Chunk.elementIds]

theorem chunksElemIds_map_pageLink (l : List Nat) :
    chunksElemIds (l.map Chunk.pageLink) = l.map ElemId.pageLink := by
  induction l with
  | nil => rfl
  | cons x xs ih =>
      rw [List.map_cons, chunksElemIds_cons, List.map_cons, ih]
      rfl

/-- The footer declares exactly the pagination link ids, in order. -/
theorem footerChunks_elemIds (tp : Nat) :
    chunksElemIds (footerChunks tp)
      = (List.range' 1 tp).map ElemId.pageLink := by
  rw [footerChunks, chunksElemIds_append, chunksElemIds_append,
    chunksElemIds_map_pageLink]
  simp [chunksElemIds, Chunk.elementIds]

/-- All element ids of a generated document are structurally distinct. -/
theorem generateChunks_elemIds_nodup (fmt : String → String)
    (v : HTMLTweetsVisualizer) (cs : List Chunk)
    (h : generateChunks fmt v = some cs) : (chunksElemIds cs).Nodup := by
  rw [generateChunks] at h
  simp only [Option.bind_eq_some] at h
  obtain ⟨pages, hp, hcs⟩ := h
  obtain rfl : cs = headerChunks v.username ++ pages.flatten
      ++ footerChunks (total_pages v.json_path.length) :=
    ((Option.some.injEq _ _).mp hcs).symm
  obtain ⟨pn, ps⟩ := pages_elemIds fmt v.json_path
    (total_pages v.json_path.length) 1 pages hp (le_refl 1)
  rw [chunksElemIds_append, chunksElemIds_append, headerChunks_elemIds,
    footerChunks_elemIds, chunksElemIds_flatten]
  rw [List.nodup_append, List.nodup_append]
  refine ⟨⟨by simp, pn, fun e he1 he2 => ?_⟩,
    List.Nodup.map (fun a b hab => ElemId.pageLink.inj hab)
      (List.nodup_range' 1 _), fun e he1 he2 => ?_⟩
  · simp only [List.mem_singleton] at he1
    subst he1
    obtain ⟨p, -, -, hpe⟩ := ps _ he2
    rcases hpe with hh | ⟨i2, kc2, -, hh | hh | hh⟩ <;> simp at hh
  · rw [List.mem_map] at he2
    obtain ⟨p, -, rfl⟩ := he2
    rcases List.mem_append.mp he1 with he1 | he1
    · simp at he1
    · obtain ⟨q, -, -, hq⟩ := ps _ he1
      rcases hq with hh | ⟨i2, kc2, -, hh | hh | hh⟩ <;> simp at hh

/-- C9: accordion element ids carry the record's global zero-based index
(not a per-page index), so all element id strings of the generated
document, page containers, pagination links, loading paragraph and all
accordion checkbox/loading/iframe ids together, are pairwise distinct. -/
theorem element_ids_pairwise_distinct (fmt : String → String)
    (v : HTMLTweetsVisualizer) (cs : List Chunk)
    (h : generateChunks fmt v = some cs) : (documentIds cs).Nodup :=
  List.Nodup.map elemId_render_injective
    (generateChunks_elemIds_nodup fmt v cs h)

/-- Witness for C9 on a concrete two-record list. -/
theorem element_ids_pairwise_distinct_witness :
    ∃ cs, generateChunks id ⟨"u", [sampleArchivedTweet, sampleTextTweet], none⟩
        = some cs
      ∧ (documentIds cs).Nodup := by
  obtain ⟨cs, hcs⟩ : ∃ cs,
      generateChunks id ⟨"u", [sampleArchivedTweet, sampleTextTweet], none⟩
        = some cs := ⟨_, rfl⟩
  exact ⟨cs, hcs, element_ids_pairwise_distinct id _ cs hcs⟩
